import Mathlib

/-!
Shallow embedding of `src/plots.py` from the tumor-growth model-scoring
repository, together with proofs about its two algorithmic entry points:

* `get_mae_and_aic` (lines 189-267): splits each study into trend subgroups,
  fits every model to every patient of every subgroup, drops patients whose
  prediction contains NaN, and records one (MAE, AIC) row per
  (subgroup, model) pair.
* `plot_correct_predictions` (lines 112-150): for each number `i` of leading
  data points, compares the trend classified from the first `i` measurements
  of a patient with the trend classified from the patient's full series and
  aggregates the proportion of agreements per (study, arm) group.

Modelling conventions:

* A pandas DataFrame holding one study (or subgroup) appears as a
  `List Patient`, one entry per patient, in the order in which
  `groupby('PatientID')` iterates the frame (ascending `PatientID`; the
  frames produced by the pipeline keep each patient's rows contiguous in
  that same order, so the flat column order and the groupby order agree).
* Floating-point values are rationals.  A NaN produced by a failed fit is
  `Option.none`; `fits.fit_patient model p` applied to `p['TreatmentDay']`
  is abstracted by the field `Model.predict`, which returns one optional
  value per time point.
* Python exceptions that `get_mae_and_aic` can raise are made explicit in a
  `RunError` result: `ZeroDivisionError` from `Sum/n` with `n = 0`,
  `IndexError` from `tumorVolumeNorm_list[i]` with `i` past the end, and
  sklearn's `ValueError` for inconsistent sample counts in
  `mean_absolute_error`.  An uncaught exception aborts the Python run before
  the output CSV is written, so records are emitted only on a fully
  successful run.
* `np.log` is the natural logarithm, `Real.log`.
-/

namespace Plots

/-- One patient of a study frame: the patient identifier and the ordered rows
`(TreatmentDay, TumorVolumeNorm)` belonging to that patient. -/
structure Patient where
  id : ℕ
  measurements : List (ℚ × ℚ)
  deriving DecidableEq

/-- A growth model as used by `get_mae_and_aic`: its `__name__`, its declared
parameter count `model.params`, and the composite
`fits.fit_patient(model, p)(p['TreatmentDay'])` — the fitted curve evaluated
at the patient's time points, one optional value per point, where `none`
encodes a NaN in the prediction (a failed / non-finite fit). -/
structure Model where
  name : String
  params : ℕ
  predict : Patient → List (Option ℚ)

/-- The RECIST 1.1 response categories used by `utils.split_on_trend_recist`. -/
inductive RecistLabel where
  | CR | PR | PD | SD
  deriving DecidableEq

/-- The free-form trend categories used by `utils.split_on_trend`. -/
inductive FreeLabel where
  | up | down | fluctuate
  deriving DecidableEq

/-- One row of the output table built by `get_mae_and_aic`
(`['study_trend','model','MAE','AIC']`).  The AIC cell is determined by the
recorded parameter count `aicK` and the recorded argument `aicSSE` of the
logarithm; see `aicVal`. -/
structure ScoreRecord where
  study_trend : String
  model : String
  mae : ℚ
  aicK : ℕ
  aicSSE : ℚ
  deriving DecidableEq

/-- The AIC value of an output row: `(2 * model.params) - (2 * np.log(temp_sum))`
from line 259 of `plots.py`. -/
noncomputable def aicVal (r : ScoreRecord) : ℝ :=
  2 * (r.aicK : ℝ) - 2 * Real.log (r.aicSSE : ℝ)

/-- The Python exceptions that can escape `get_mae_and_aic`. -/
inductive RunError where
  | zeroDivision
  | indexError
  | lengthMismatch
  deriving DecidableEq

deriving instance DecidableEq for Except

/-- Modelled from the spec: `utils.get_at_least(study, n)` (not under `src/`)
restricts a study to the patients having at least `n` measurements. -/
def get_at_least (study : List Patient) (n : ℕ) : List Patient :=
  study.filter fun p => decide (n ≤ p.measurements.length)

/-- Modelled from the spec: `utils.split_on_trend_recist` (not under `src/`)
partitions a study's patients by their full-series RECIST trend label; the
classifier itself is the abstract parameter `cls`. -/
def split_on_trend_recist (cls : Patient → RecistLabel) (study : List Patient) :
    List Patient × List Patient × List Patient × List Patient :=
  (study.filter fun p => decide (cls p = RecistLabel.CR),
   study.filter fun p => decide (cls p = RecistLabel.PR),
   study.filter fun p => decide (cls p = RecistLabel.PD),
   study.filter fun p => decide (cls p = RecistLabel.SD))

/-- Modelled from the spec: `utils.split_on_trend` (not under `src/`)
partitions a study's patients by their full-series free-form trend label. -/
def split_on_trend (cls : Patient → FreeLabel) (study : List Patient) :
    List Patient × List Patient × List Patient :=
  (study.filter fun p => decide (cls p = FreeLabel.up),
   study.filter fun p => decide (cls p = FreeLabel.down),
   study.filter fun p => decide (cls p = FreeLabel.fluctuate))

/-- The `dictionary` built by the `recist=True` branch of `get_mae_and_aic`
(lines 194-208): for each study, in order, the four subgroups
`name_CR`, `name_PR`, `name_PD`, `name_SD` of the patients having at least 6
measurements.  Python dict iteration follows insertion order and the study
names of the script are pairwise distinct, so the dict is a list of pairs. -/
def buildGroupsRecist (cls : Patient → RecistLabel) (study_names : List String)
    (studies : List (List Patient)) : List (String × List Patient) :=
  (study_names.zip studies).flatMap fun ns =>
    let s := split_on_trend_recist cls (get_at_least ns.2 6)
    [(ns.1 ++ "_CR", s.1), (ns.1 ++ "_PR", s.2.1),
     (ns.1 ++ "_PD", s.2.2.1), (ns.1 ++ "_SD", s.2.2.2)]

/-- The `dictionary` built by the `recist=False` branch of `get_mae_and_aic`
(lines 209-221): for each study, in order, the subgroups `name_up`,
`name_down`, `name_fluctuate` of the patients having at least 6 measurements. -/
def buildGroupsFree (cls : Patient → FreeLabel) (study_names : List String)
    (studies : List (List Patient)) : List (String × List Patient) :=
  (study_names.zip studies).flatMap fun ns =>
    let s := split_on_trend cls (get_at_least ns.2 6)
    [(ns.1 ++ "_up", s.1), (ns.1 ++ "_down", s.2.1), (ns.1 ++ "_fluctuate", s.2.2)]

/-- The subgroup dictionary of `get_mae_and_aic`, for either value of the
`recist` flag. -/
def buildGroups (recist : Bool) (cls4 : Patient → RecistLabel)
    (cls3 : Patient → FreeLabel) (study_names : List String)
    (studies : List (List Patient)) : List (String × List Patient) :=
  if recist then buildGroupsRecist cls4 study_names studies
  else buildGroupsFree cls3 study_names studies

/-- Whether a patient's prediction under a model is NaN-free; the complement
of the test `math.isnan(v)` hitting some value of the patient (lines 236-240). -/
def fitOk (m : Model) (p : Patient) : Bool :=
  !((m.predict p).any Option.isNone)

/-- Line 240: the result of dropping, from a subgroup frame, every patient one
of whose predicted values is NaN.  (The `predicted.hasnans` guard on line 236
only skips this filter when it would not drop anybody, so the unconditional
filter has the same value.) -/
def dropNaNPatients (m : Model) (grp : List Patient) : List Patient :=
  grp.filter fun p => fitOk m p

/-- The patient's observed `TumorVolumeNorm` column. -/
def obsVols (p : Patient) : List ℚ :=
  p.measurements.map Prod.snd

/-- The non-NaN values of a patient's prediction, in order (what survives
`predicted.dropna()` for this patient). -/
def finitePreds (m : Model) (p : Patient) : List ℚ :=
  (m.predict p).filterMap id

/-- Python's `abs` on a rational, written executably (it equals `|q|`, see
`ratAbs_eq_abs`). -/
def ratAbs (q : ℚ) : ℚ :=
  if q < 0 then -q else q

/-- The sum of pointwise absolute differences of two lists, over the common
prefix of the two (the Python loop on lines 250-253 runs `i` from `0` to
`len(frame_predicted) - 1`, so it stops with the first list; it raises
`IndexError` instead if the second list is the shorter one, which the caller
checks before using this value). -/
def sumAbsDiff : List ℚ → List ℚ → ℚ
  | a :: as, b :: bs => ratAbs (a - b) + sumAbsDiff as bs
  | _, _ => 0

/-- The column `frame_predicted` (lines 243-247): the concatenated per-patient
predictions of the whole subgroup frame with the NaN entries removed
(`predicted.dropna()` applied to the `groupby('PatientID').apply` series). -/
def predColumn (m : Model) (grp : List Patient) : List ℚ :=
  (grp.flatMap m.predict).filterMap id

/-- The column `tumorVolumeNorm_list` (line 248): the concatenated observed
`TumorVolumeNorm` values of a subgroup frame. -/
def volColumn (grp : List Patient) : List ℚ :=
  grp.flatMap obsVols

/-- The body of the inner `for model in models` loop of `get_mae_and_aic`
(lines 227-263) on one subgroup frame `grp`: predict every patient, drop the
patients with a NaN prediction from the frame (mutating `dictionary[entry]`),
drop the NaN values from the prediction series, and compute the MAE and AIC
cells of the new row.  Returns the appended row together with the mutated
frame that the next model of the same subgroup will see, or the Python
exception raised:

* `n = 0` makes `absError = Sum/n` raise `ZeroDivisionError` (line 255);
* more predicted values than observed ones makes
  `tumorVolumeNorm_list[i]` raise `IndexError` (line 253);
* otherwise unequal lengths make sklearn's `mean_absolute_error` raise
  `ValueError` (line 261). -/
def modelStep (m : Model) (entry : String) (grp : List Patient) :
    Except RunError (ScoreRecord × List Patient) :=
  let grp' := dropNaNPatients m grp
  let fp := predColumn m grp
  let tv := volColumn grp'
  if fp.length = 0 then .error .zeroDivision
  else if tv.length < fp.length then .error .indexError
  else if fp.length ≠ tv.length then .error .lengthMismatch
  else
    .ok ({ study_trend := entry
           model := m.name
           mae := sumAbsDiff tv fp / (tv.length : ℚ)
           aicK := m.params
           aicSSE := (sumAbsDiff fp tv / (fp.length : ℚ)) *
                     (sumAbsDiff fp tv / (fp.length : ℚ)) }, grp')

/-- The inner loop of `get_mae_and_aic` over all models, threading the
mutated subgroup frame from one model to the next; the first exception
aborts the run. -/
def runModels (ms : List Model) (entry : String) (grp : List Patient) :
    Except RunError (List ScoreRecord) :=
  match ms with
  | [] => .ok []
  | m :: rest =>
    match modelStep m entry grp with
    | .error e => .error e
    | .ok rg =>
      match runModels rest entry rg.2 with
      | .error e => .error e
      | .ok rs => .ok (rg.1 :: rs)

/-- The outer `for entry in dictionary` loop of `get_mae_and_aic`
(lines 225-263), appending the rows of each subgroup in dictionary order. -/
def runGroups (groups : List (String × List Patient)) (ms : List Model) :
    Except RunError (List ScoreRecord) :=
  match groups with
  | [] => .ok []
  | g :: rest =>
    match runModels ms g.1 g.2 with
    | .error e => .error e
    | .ok rs =>
      match runGroups rest ms with
      | .error e => .error e
      | .ok rs' => .ok (rs ++ rs')

/-- `get_mae_and_aic(study_names, studies, models, recist)` (lines 189-267):
the rows of the output table written at the end of a successful run, or the
exception that aborted the run.  The trend classifiers live in `utils`
(outside `src/`) and are abstract parameters `cls4` / `cls3`. -/
def get_mae_and_aic (recist : Bool) (cls4 : Patient → RecistLabel)
    (cls3 : Patient → FreeLabel) (study_names : List String)
    (studies : List (List Patient)) (models : List Model) :
    Except RunError (List ScoreRecord) :=
  runGroups (buildGroups recist cls4 cls3 study_names studies) models

/-- The mutated subgroup frames seen by the successive models of one subgroup:
entry `j` is the frame from which model `j`'s statistics are aggregated after
its own NaN patients were dropped (the value `dictionary[entry]` holds while
model `j`'s row is computed, provided the run reaches that model). -/
def groupTrace : List Model → List Patient → List (List Patient)
  | [], _ => []
  | m :: rest, grp =>
    let g' := dropNaNPatients m grp
    g' :: groupTrace rest g'

/-- One patient of the merged frame of `plot_correct_predictions`: the
`(StudyNr, Arm, PatientID)` key and the ordered `TargetLesionLongDiam_mm`
column of the patient's rows. -/
structure TrendPatient where
  studyNr : ℕ
  arm : ℕ
  pid : ℕ
  ld : List ℚ
  deriving DecidableEq

/-- Line 136: whether the trend classified from the first `i` measurements of
a patient equals the trend classified from the patient's full series, for a
classifier `f` (chosen once from the `recist` flag). -/
def correctTrend {α : Type} [DecidableEq α] (f : List ℚ → α) (i : ℕ)
    (p : TrendPatient) : Bool :=
  decide (f (p.ld.take i) = f p.ld)

/-- The mean of a boolean column, as computed by pandas `aggregate('mean')`
(`True` counts 1, `False` counts 0). -/
def boolMean (bs : List Bool) : ℚ :=
  ((bs.map fun b => if b then (1 : ℚ) else 0).sum) / (bs.length : ℚ)

/-- The `(StudyNr, Arm)` keys of a merged frame, first occurrence first. -/
def armKeys (ps : List TrendPatient) : List (ℕ × ℕ) :=
  ps.foldl (fun ks p => if (p.studyNr, p.arm) ∈ ks then ks else ks ++ [(p.studyNr, p.arm)]) []

/-- The partition of the merged frame's patients into `(StudyNr, Arm)` groups
performed by the `groupby(['StudyNr', 'Arm'])` aggregation on line 140. -/
def armGroups (ps : List TrendPatient) : List (List TrendPatient) :=
  (armKeys ps).map fun k => ps.filter fun p => decide ((p.studyNr, p.arm) = k)

/-- The accuracy of `i`-point predictions in one `(StudyNr, Arm)` group: the
mean of the per-patient `CorrectTrend` booleans. -/
def armAccuracy {α : Type} [DecidableEq α] (f : List ℚ → α) (i : ℕ)
    (g : List TrendPatient) : ℚ :=
  boolMean (g.map fun p => correctTrend f i p)

/-- The `data` list built by `plot_correct_predictions` (lines 122-143): for
each amount of points `i` in `range(2, up_to + 1)`, the per-(study, arm)
proportions of patients whose trend from the first `i` points equals their
full-series trend. -/
def plot_correct_predictions {α : Type} [DecidableEq α] (f : List ℚ → α)
    (up_to : ℕ) (merged : List TrendPatient) : List (List ℚ) :=
  (List.range' 2 (up_to - 1)).map fun i =>
    (armGroups merged).map fun g => armAccuracy f i g

/-- The classifier selection on lines 116-120: the RECIST 1.1 variant when
`recist` is true, the free-form variant otherwise.  The two variants live in
`utils` (outside `src/`) and are abstract parameters. -/
def chooseClassifier {α : Type} (recist : Bool) (fRec fFree : List ℚ → α) :
    List ℚ → α :=
  if recist then fRec else fFree

/-- `plot_correct_predictions(studies, up_to, recist)` with the classifier
variants made explicit: the selected variant is used for both sides of every
comparison. -/
def plot_correct_predictions_run {α : Type} [DecidableEq α] (recist : Bool)
    (fRec fFree : List ℚ → α) (up_to : ℕ) (merged : List TrendPatient) :
    List (List ℚ) :=
  plot_correct_predictions (chooseClassifier recist fRec fFree) up_to merged

/-- A generalization that classifies the `i`-point head with `fHead` but the
full series with `fFull`; the source coincides with the diagonal
`fHead = fFull` of this function (both trends on line 136-137 come from the
single variable `f`). -/
def plot_correct_predictions_mixed {α : Type} [DecidableEq α]
    (fHead fFull : List ℚ → α) (up_to : ℕ) (merged : List TrendPatient) :
    List (List ℚ) :=
  (List.range' 2 (up_to - 1)).map fun i =>
    (armGroups merged).map fun g =>
      boolMean (g.map fun p => decide (fHead (p.ld.take i) = fFull p.ld))

/-! ### Spec-side definitions

These follow the wording of the specification (not the source); the theorems
below compare them with the embedded code. -/

/-- Spec-side: the mean absolute error of one fitted patient, over that
patient's own measurement points. -/
def patientMAE (m : Model) (p : Patient) : ℚ :=
  sumAbsDiff (obsVols p) (finitePreds m p) / (p.measurements.length : ℚ)

/-- Spec-side, following the claim's words: `SSE` as "the sum of the squared
mean-absolute-errors of the fitted patients in that subgroup". -/
def claimSSE (m : Model) (fitted : List Patient) : ℚ :=
  (fitted.map fun p => patientMAE m p * patientMAE m p).sum

/-- Spec-side: the AIC formula of the claim, `2 * k - 2 * ln SSE`. -/
noncomputable def claimAIC (k : ℕ) (sse : ℚ) : ℝ :=
  2 * (k : ℝ) - 2 * Real.log (sse : ℝ)

/-- Spec-side: the mean absolute error between predicted and observed values
pooled over all of the given patients' measurement points. -/
def pooledMAE (m : Model) (g : List Patient) : ℚ :=
  (g.map fun p => sumAbsDiff (obsVols p) (finitePreds m p)).sum /
  (((g.map fun p => p.measurements.length).sum : ℕ) : ℚ)

/-! ### Concrete inputs used by counterexamples and witnesses -/

/-- Six measurement rows (days 0-5, all observed volumes 0), enough to pass
the `get_at_least(study, 6)` cut. -/
def exMeas : List (ℚ × ℚ) := [(0, 0), (1, 0), (2, 0), (3, 0), (4, 0), (5, 0)]

def exP1 : Patient := ⟨1, exMeas⟩

def exP2 : Patient := ⟨2, exMeas⟩

def exP3 : Patient := ⟨3, exMeas⟩

def exP4 : Patient := ⟨4, exMeas⟩

def exP5 : Patient := ⟨5, exMeas⟩

/-- A RECIST classifier placing patients 1 and 2 in CR and one patient in
each remaining category, so that no subgroup of the example study is empty. -/
def exCls : Patient → RecistLabel := fun p =>
  if p.id = 1 ∨ p.id = 2 then .CR
  else if p.id = 3 then .PR
  else if p.id = 4 then .PD
  else .SD

def exCls3 : Patient → FreeLabel := fun _ => .up

/-- A one-parameter model predicting the constant 1 for every patient except
patient 2, for whom it predicts the constant 2 (all predictions finite). -/
def exM : Model :=
  ⟨"M", 1, fun p => List.replicate 6 (some (if p.id = 2 then 2 else 1))⟩

/-- A model whose fit fails (all-NaN prediction) exactly for patient 1. -/
def exM1 : Model :=
  ⟨"M1", 1, fun p => if p.id = 1 then List.replicate 6 none
                     else List.replicate 6 (some 1)⟩

/-- A model whose fit succeeds for every patient. -/
def exM2 : Model :=
  ⟨"M2", 2, fun _ => List.replicate 6 (some 2)⟩

/-- A model whose fit fails for every patient. -/
def exMnan : Model := ⟨"M", 1, fun _ => List.replicate 6 none⟩

/-- A classifier putting every patient in CR. -/
def exClsCR : Patient → RecistLabel := fun _ => .CR

/-- A classifier putting patient 1 in CR and every other patient in PR. -/
def exCls5 : Patient → RecistLabel := fun p => if p.id = 1 then .CR else .PR

/-- A patient of the trend study with a 3-point diameter series. -/
def exTP : TrendPatient := ⟨1, 1, 1, [1, 2, 3]⟩

/-- The row `get_mae_and_aic` produces for the subgroup `S_CR = [exP1, exP2]`
under `exM`: pooled MAE `(6*1 + 6*2)/12 = 3/2`, logarithm argument
`(3/2)^2 = 9/4`. -/
def exRecCR : ScoreRecord := ⟨"S_CR", "M", 3/2, 1, 9/4⟩

def exRecPR : ScoreRecord := ⟨"S_PR", "M", 1, 1, 1⟩

def exRecPD : ScoreRecord := ⟨"S_PD", "M", 1, 1, 1⟩

def exRecSD : ScoreRecord := ⟨"S_SD", "M", 1, 1, 1⟩

/-! ### Basic lemmas about the embedded arithmetic -/

theorem ratAbs_eq_abs (q : ℚ) : ratAbs q = |q| := by
  unfold ratAbs
  split
  · next h => exact (abs_of_neg h).symm
  · next h => exact (abs_of_nonneg (le_of_not_lt h)).symm

theorem ratAbs_nonneg (q : ℚ) : 0 ≤ ratAbs q := by
  rw [ratAbs_eq_abs]; exact abs_nonneg q

theorem ratAbs_sub_comm (a b : ℚ) : ratAbs (a - b) = ratAbs (b - a) := by
  rw [ratAbs_eq_abs, ratAbs_eq_abs, abs_sub_comm]

theorem sumAbsDiff_nil_left (ys : List ℚ) : sumAbsDiff [] ys = 0 := by
  cases ys <;> rfl

theorem sumAbsDiff_nil_right (xs : List ℚ) : sumAbsDiff xs [] = 0 := by
  cases xs <;> rfl

theorem sumAbsDiff_cons (a b : ℚ) (as bs : List ℚ) :
    sumAbsDiff (a :: as) (b :: bs) = ratAbs (a - b) + sumAbsDiff as bs := rfl

theorem sumAbsDiff_comm (xs ys : List ℚ) : sumAbsDiff xs ys = sumAbsDiff ys xs := by
  induction xs generalizing ys with
  | nil => rw [sumAbsDiff_nil_left, sumAbsDiff_nil_right]
  | cons a as ih =>
    cases ys with
    | nil => rw [sumAbsDiff_nil_left, sumAbsDiff_nil_right]
    | cons b bs => rw [sumAbsDiff_cons, sumAbsDiff_cons, ratAbs_sub_comm, ih]

theorem sumAbsDiff_nonneg (xs ys : List ℚ) : 0 ≤ sumAbsDiff xs ys := by
  induction xs generalizing ys with
  | nil => rw [sumAbsDiff_nil_left]
  | cons a as ih =>
    cases ys with
    | nil => rw [sumAbsDiff_nil_right]
    | cons b bs =>
      rw [sumAbsDiff_cons]
      exact add_nonneg (ratAbs_nonneg _) (ih bs)

theorem sumAbsDiff_append (xs ys as bs : List ℚ) (h : xs.length = ys.length) :
    sumAbsDiff (xs ++ as) (ys ++ bs) = sumAbsDiff xs ys + sumAbsDiff as bs := by
  induction xs generalizing ys with
  | nil =>
    cases ys with
    | nil => simp [sumAbsDiff_nil_left]
    | cons b bs' => simp at h
  | cons x xs' ih =>
    cases ys with
    | nil => simp at h
    | cons y ys' =>
      simp only [List.length_cons, Nat.add_right_cancel_iff] at h
      simp only [List.cons_append, sumAbsDiff_cons, ih ys' h, add_assoc]

/-! ### Lemmas about the prediction and observation columns -/

theorem length_filterMap_id_of_no_none {l : List (Option ℚ)}
    (h : l.any Option.isNone = false) : (l.filterMap id).length = l.length := by
  induction l with
  | nil => rfl
  | cons x xs ih =>
    simp only [List.any_cons, Bool.or_eq_false_iff] at h
    cases x with
    | none => simp [Option.isNone] at h
    | some a => simp [List.filterMap_cons, ih h.2]

theorem predColumn_nil (m : Model) : predColumn m [] = [] := rfl

theorem predColumn_cons (m : Model) (p : Patient) (ps : List Patient) :
    predColumn m (p :: ps) = finitePreds m p ++ predColumn m ps := by
  unfold predColumn finitePreds
  rw [List.flatMap_cons, List.filterMap_append]

theorem volColumn_nil : volColumn [] = [] := rfl

theorem volColumn_cons (p : Patient) (ps : List Patient) :
    volColumn (p :: ps) = obsVols p ++ volColumn ps := by
  unfold volColumn
  rw [List.flatMap_cons]

theorem length_obsVols (p : Patient) : (obsVols p).length = p.measurements.length := by
  unfold obsVols; rw [List.length_map]

theorem length_volColumn (g : List Patient) :
    (volColumn g).length = (g.map fun p => p.measurements.length).sum := by
  induction g with
  | nil => rfl
  | cons p ps ih =>
    rw [volColumn_cons, List.length_append, length_obsVols, List.map_cons, List.sum_cons, ih]

theorem dropNaNPatients_nil (m : Model) : dropNaNPatients m [] = [] := rfl

theorem dropNaNPatients_cons (m : Model) (p : Patient) (ps : List Patient) :
    dropNaNPatients m (p :: ps) =
      if fitOk m p then p :: dropNaNPatients m ps else dropNaNPatients m ps := by
  unfold dropNaNPatients
  rw [List.filter_cons]

theorem finitePreds_length_of_fitOk {m : Model} {p : Patient} (h : fitOk m p = true) :
    (finitePreds m p).length = (m.predict p).length := by
  unfold finitePreds
  refine length_filterMap_id_of_no_none ?_
  unfold fitOk at h
  simpa using h

/-- The inversion principle for a successful `modelStep`: the mutated frame is
the NaN-filtered one, the predicted and observed columns are nonempty and of
equal length, and the appended row is exactly the one built on lines 250-262. -/
theorem modelStep_ok {m : Model} {entry : String} {grp : List Patient}
    {r : ScoreRecord} {g' : List Patient}
    (h : modelStep m entry grp = .ok (r, g')) :
    g' = dropNaNPatients m grp ∧
    (predColumn m grp).length ≠ 0 ∧
    (predColumn m grp).length = (volColumn (dropNaNPatients m grp)).length ∧
    r = { study_trend := entry
          model := m.name
          mae := sumAbsDiff (volColumn (dropNaNPatients m grp)) (predColumn m grp) /
                 ((volColumn (dropNaNPatients m grp)).length : ℚ)
          aicK := m.params
          aicSSE := (sumAbsDiff (predColumn m grp) (volColumn (dropNaNPatients m grp)) /
                      ((predColumn m grp).length : ℚ)) *
                    (sumAbsDiff (predColumn m grp) (volColumn (dropNaNPatients m grp)) /
                      ((predColumn m grp).length : ℚ)) } := by
  unfold modelStep at h
  simp only at h
  split at h
  · exact absurd h (by simp)
  · split at h
    · exact absurd h (by simp)
    · split at h
      · exact absurd h (by simp)
      · next h1 h2 h3 =>
        rw [Except.ok.injEq, Prod.mk.injEq] at h
        refine ⟨h.2.symm, h1, by omega, h.1.symm⟩

/-! ### Decomposition of the pooled columns into per-patient pieces -/

/-- Under per-patient length agreement, the observed column of the
NaN-filtered frame is never longer than the NaN-dropped prediction column:
kept patients contribute equally to both, dropped patients only to the
predictions. -/
theorem length_volColumn_le_predColumn (m : Model) (grp : List Patient)
    (hlen : ∀ p ∈ grp, (m.predict p).length = p.measurements.length) :
    (volColumn (dropNaNPatients m grp)).length ≤ (predColumn m grp).length := by
  induction grp with
  | nil => simp [dropNaNPatients_nil, volColumn_nil, predColumn_nil]
  | cons p ps ih =>
    have hps : ∀ q ∈ ps, (m.predict q).length = q.measurements.length :=
      fun q hq => hlen q (List.mem_cons_of_mem p hq)
    have hp := hlen p (List.mem_cons_self p ps)
    rw [dropNaNPatients_cons, predColumn_cons, List.length_append]
    by_cases hfit : fitOk m p
    · rw [if_pos hfit, volColumn_cons, List.length_append, length_obsVols]
      have h1 : (finitePreds m p).length = p.measurements.length := by
        rw [finitePreds_length_of_fitOk hfit, hp]
      have h2 := ih hps
      omega
    · rw [if_neg hfit]
      have h2 := ih hps
      omega

/-- When the two pooled columns have equal length, every dropped patient's
prediction is entirely NaN, and the pooled sum of absolute differences is the
sum of the per-patient sums over the kept patients. -/
theorem sumAbsDiff_decomp (m : Model) (grp : List Patient)
    (hlen : ∀ p ∈ grp, (m.predict p).length = p.measurements.length)
    (heq : (predColumn m grp).length = (volColumn (dropNaNPatients m grp)).length) :
    sumAbsDiff (volColumn (dropNaNPatients m grp)) (predColumn m grp) =
      ((dropNaNPatients m grp).map fun p => sumAbsDiff (obsVols p) (finitePreds m p)).sum := by
  induction grp with
  | nil => simp [dropNaNPatients_nil, volColumn_nil, predColumn_nil, sumAbsDiff_nil_left]
  | cons p ps ih =>
    have hps : ∀ q ∈ ps, (m.predict q).length = q.measurements.length :=
      fun q hq => hlen q (List.mem_cons_of_mem p hq)
    have hp := hlen p (List.mem_cons_self p ps)
    by_cases hfit : fitOk m p
    · have hfin : (finitePreds m p).length = (obsVols p).length := by
        rw [finitePreds_length_of_fitOk hfit, hp, length_obsVols]
      have heq' : (predColumn m ps).length =
          (volColumn (dropNaNPatients m ps)).length := by
        rw [dropNaNPatients_cons, if_pos hfit, volColumn_cons, List.length_append,
          predColumn_cons, List.length_append] at heq
        omega
      rw [dropNaNPatients_cons, if_pos hfit, volColumn_cons, predColumn_cons,
        sumAbsDiff_append _ _ _ _ hfin.symm, List.map_cons, List.sum_cons,
        ih hps heq']
    · have hle := length_volColumn_le_predColumn m ps hps
      have hdrop : dropNaNPatients m (p :: ps) = dropNaNPatients m ps := by
        rw [dropNaNPatients_cons, if_neg hfit]
      have hnil : finitePreds m p = [] := by
        rw [hdrop, predColumn_cons, List.length_append] at heq
        have h0 : (finitePreds m p).length = 0 := by omega
        exact List.eq_nil_of_length_eq_zero h0
      have hpred : predColumn m (p :: ps) = predColumn m ps := by
        rw [predColumn_cons, hnil, List.nil_append]
      rw [hdrop, hpred]
      rw [hdrop, hpred] at heq
      exact ih hps heq

/-! ### Structure of a successful run -/

/-- Every row of a successful `runModels` pass comes from a successful
`modelStep` of one of its models. -/
theorem runModels_ok_mem {ms : List Model} {entry : String} {grp : List Patient}
    {rs : List ScoreRecord} {r : ScoreRecord}
    (h : runModels ms entry grp = .ok rs) (hr : r ∈ rs) :
    ∃ m ∈ ms, ∃ g g', modelStep m entry g = .ok (r, g') := by
  induction ms generalizing grp rs with
  | nil =>
    unfold runModels at h
    rw [Except.ok.injEq] at h
    subst h
    exact absurd hr (List.not_mem_nil r)
  | cons m rest ih =>
    unfold runModels at h
    cases hstep : modelStep m entry grp with
    | error e => rw [hstep] at h; exact absurd h (by simp)
    | ok pr =>
      rw [hstep] at h
      dsimp only at h
      cases hrest : runModels rest entry pr.2 with
      | error e => rw [hrest] at h; exact absurd h (by simp)
      | ok rs' =>
        rw [hrest] at h
        dsimp only at h
        rw [Except.ok.injEq] at h
        subst h
        rcases List.mem_cons.mp hr with hr1 | hr2
        · subst hr1
          exact ⟨m, List.mem_cons_self m rest, grp, pr.2, by rw [hstep]⟩
        · obtain ⟨m', hm', g, g', hg⟩ := ih hrest hr2
          exact ⟨m', List.mem_cons_of_mem m hm', g, g', hg⟩

/-- Every row of a successful `runGroups` pass comes from a successful
`runModels` pass of one of the subgroups. -/
theorem runGroups_ok_mem {groups : List (String × List Patient)} {ms : List Model}
    {recs : List ScoreRecord} {r : ScoreRecord}
    (h : runGroups groups ms = .ok recs) (hr : r ∈ recs) :
    ∃ e ∈ groups, ∃ rs, runModels ms e.1 e.2 = .ok rs ∧ r ∈ rs := by
  induction groups generalizing recs with
  | nil =>
    unfold runGroups at h
    rw [Except.ok.injEq] at h
    subst h
    exact absurd hr (List.not_mem_nil r)
  | cons g rest ih =>
    unfold runGroups at h
    cases hm : runModels ms g.1 g.2 with
    | error e => rw [hm] at h; exact absurd h (by simp)
    | ok rs =>
      rw [hm] at h
      dsimp only at h
      cases hrest : runGroups rest ms with
      | error e => rw [hrest] at h; exact absurd h (by simp)
      | ok rs' =>
        rw [hrest] at h
        dsimp only at h
        rw [Except.ok.injEq] at h
        subst h
        rcases List.mem_append.mp hr with hr1 | hr2
        · exact ⟨g, List.mem_cons_self g rest, rs, hm, hr1⟩
        · obtain ⟨e, he, rs'', hrs'', hr''⟩ := ih hrest hr2
          exact ⟨e, List.mem_cons_of_mem g he, rs'', hrs'', hr''⟩

/-- The `(study_trend, model)` keys of a successful `runModels` pass are the
models in order, all under the subgroup's name. -/
theorem runModels_ok_keys {ms : List Model} {entry : String} {grp : List Patient}
    {rs : List ScoreRecord} (h : runModels ms entry grp = .ok rs) :
    rs.map (fun r => (r.study_trend, r.model)) = ms.map fun m => (entry, m.name) := by
  induction ms generalizing grp rs with
  | nil =>
    unfold runModels at h
    rw [Except.ok.injEq] at h
    subst h; rfl
  | cons m rest ih =>
    unfold runModels at h
    cases hstep : modelStep m entry grp with
    | error e => rw [hstep] at h; exact absurd h (by simp)
    | ok pr =>
      rw [hstep] at h
      dsimp only at h
      cases hrest : runModels rest entry pr.2 with
      | error e => rw [hrest] at h; exact absurd h (by simp)
      | ok rs' =>
        rw [hrest] at h
        dsimp only at h
        rw [Except.ok.injEq] at h
        subst h
        obtain ⟨-, -, -, hrec⟩ :=
          @modelStep_ok m entry grp pr.1 pr.2 (by rw [hstep])
        rw [List.map_cons, ih hrest, hrec]
        rfl

/-- The `(study_trend, model)` keys of a successful `runGroups` pass are the
subgroups in dictionary order, each paired with the models in order. -/
theorem runGroups_ok_keys {groups : List (String × List Patient)} {ms : List Model}
    {recs : List ScoreRecord} (h : runGroups groups ms = .ok recs) :
    recs.map (fun r => (r.study_trend, r.model)) =
      groups.flatMap fun g => ms.map fun m => (g.1, m.name) := by
  induction groups generalizing recs with
  | nil =>
    unfold runGroups at h
    rw [Except.ok.injEq] at h
    subst h; rfl
  | cons g rest ih =>
    unfold runGroups at h
    cases hm : runModels ms g.1 g.2 with
    | error e => rw [hm] at h; exact absurd h (by simp)
    | ok rs =>
      rw [hm] at h
      dsimp only at h
      cases hrest : runGroups rest ms with
      | error e => rw [hrest] at h; exact absurd h (by simp)
      | ok rs' =>
        rw [hrest] at h
        dsimp only at h
        rw [Except.ok.injEq] at h
        subst h
        rw [List.flatMap_cons, List.map_append, runModels_ok_keys hm, ih hrest]

/-- Every frame in the trace of mutated subgroup frames is a sub-frame of the
original subgroup. -/
theorem groupTrace_subset {ms : List Model} {grp s : List Patient}
    (hs : s ∈ groupTrace ms grp) : ∀ p ∈ s, p ∈ grp := by
  induction ms generalizing grp with
  | nil => exact absurd hs (List.not_mem_nil s)
  | cons m rest ih =>
    unfold groupTrace at hs
    rcases List.mem_cons.mp hs with h1 | h2
    · subst h1
      intro p hp
      unfold dropNaNPatients at hp
      exact List.mem_of_mem_filter hp
    · intro p hp
      have := ih h2 p hp
      unfold dropNaNPatients at this
      exact List.mem_of_mem_filter this

/-! ### Claim C1 -/

/-- **C1, counterexample.**  The claim states that the AIC of an emitted
record equals `2k - 2 ln(SSE)` with `SSE` the sum of the squared per-patient
mean-absolute-errors of the fitted patients.  On the concrete study
`[exP1 .. exP5]` with the single model `exM`, the run succeeds, the `S_CR`
subgroup consists of the two fitted patients `exP1, exP2` (none is excluded),
the claimed `SSE` is `1^2 + 2^2 = 5`, but the code computes the square of the
single pooled mean absolute error, `(3/2)^2 = 9/4`, so the recorded AIC
differs from the claimed value. -/
theorem c1_counterexample :
    (get_mae_and_aic true exCls exCls3 ["S"] [[exP1, exP2, exP3, exP4, exP5]] [exM]
      = .ok [exRecCR, exRecPR, exRecPD, exRecSD] ∧
     dropNaNPatients exM [exP1, exP2] = [exP1, exP2]) ∧
    aicVal exRecCR ≠ claimAIC exM.params (claimSSE exM [exP1, exP2]) := by
  refine ⟨⟨by with_unfolding_all decide, by with_unfolding_all decide⟩, ?_⟩
  have h5 : claimSSE exM [exP1, exP2] = 5 := by with_unfolding_all decide
  have hk : exM.params = 1 := rfl
  rw [h5, hk]
  unfold aicVal claimAIC exRecCR
  dsimp only
  intro h
  have hlog : Real.log ((9/4 : ℚ) : ℝ) = Real.log ((5 : ℚ) : ℝ) := by linarith
  have h94 : ((9/4 : ℚ) : ℝ) = ((5 : ℚ) : ℝ) := by
    refine Real.log_injOn_pos ?_ ?_ hlog
    · rw [Set.mem_Ioi]; push_cast; norm_num
    · rw [Set.mem_Ioi]; push_cast; norm_num
  push_cast at h94
  norm_num at h94

/-- **C1, amended.**  For every record emitted by `get_mae_and_aic`, the AIC
value equals `2k - 2 ln(M^2)` where `k` is the declared parameter count of
the record's model and `M` is the record's own (pooled) MAE — i.e. the
logarithm is taken of the square of the single pooled mean absolute error,
not of a sum of per-patient squared MAEs. -/
theorem c1_aic_from_pooled_mae {recist : Bool} {cls4 : Patient → RecistLabel}
    {cls3 : Patient → FreeLabel} {study_names : List String}
    {studies : List (List Patient)} {models : List Model}
    {recs : List ScoreRecord} {r : ScoreRecord}
    (h : get_mae_and_aic recist cls4 cls3 study_names studies models = .ok recs)
    (hr : r ∈ recs) :
    aicVal r = 2 * (r.aicK : ℝ) - 2 * Real.log ((r.mae : ℝ) ^ 2) ∧
    ∃ m ∈ models, r.model = m.name ∧ r.aicK = m.params := by
  unfold get_mae_and_aic at h
  obtain ⟨e, he, rs, hrs, hmem⟩ := runGroups_ok_mem h hr
  obtain ⟨m, hm, g, g', hstep⟩ := runModels_ok_mem hrs hmem
  obtain ⟨hg', hne, hlen, hrec⟩ := modelStep_ok hstep
  constructor
  · have hsse : r.aicSSE = r.mae * r.mae := by
      rw [hrec]
      dsimp only
      rw [sumAbsDiff_comm (predColumn m g) (volColumn (dropNaNPatients m g)), hlen]
    have hcast : ((r.mae * r.mae : ℚ) : ℝ) = (r.mae : ℝ) ^ 2 := by
      push_cast
      ring
    unfold aicVal
    rw [hsse, hcast]
  · exact ⟨m, hm, by rw [hrec], by rw [hrec]⟩

/-- **C1, witness** for the amended theorem, at the input of the
counterexample. -/
theorem c1_witness :
    aicVal exRecCR = 2 * (exRecCR.aicK : ℝ) - 2 * Real.log ((exRecCR.mae : ℝ) ^ 2) ∧
    ∃ m ∈ [exM], exRecCR.model = m.name ∧ exRecCR.aicK = m.params :=
  @c1_aic_from_pooled_mae true exCls exCls3 ["S"] [[exP1, exP2, exP3, exP4, exP5]]
    [exM] [exRecCR, exRecPR, exRecPD, exRecSD] exRecCR
    (by with_unfolding_all decide) (by with_unfolding_all decide)

/-! ### Claim C2 -/

/-- **C2, counterexample.**  The claim states that a patient whose fit fails
for one model is excluded only from that model's aggregate, leaving the set
of patients considered for every other model of the subgroup unchanged.  On
the subgroup `S_CR = [exP1, exP2]` with models `[exM1, exM2]`, patient
`exP1`'s fit fails under `exM1` only; the run succeeds, yet the frame from
which `exM2`'s statistics are aggregated is `[exP2]`, although `exM2`'s own
exclusion applied to the subgroup would keep `[exP1, exP2]` — the
`dictionary[entry]` mutation on line 240 leaks the exclusion into the later
model. -/
theorem c2_counterexample :
    ((get_mae_and_aic true exCls exCls3 ["S"] [[exP1, exP2, exP3, exP4, exP5]]
        [exM1, exM2]
      = .ok [⟨"S_CR", "M1", 1, 1, 1⟩, ⟨"S_CR", "M2", 2, 2, 4⟩,
             ⟨"S_PR", "M1", 1, 1, 1⟩, ⟨"S_PR", "M2", 2, 2, 4⟩,
             ⟨"S_PD", "M1", 1, 1, 1⟩, ⟨"S_PD", "M2", 2, 2, 4⟩,
             ⟨"S_SD", "M1", 1, 1, 1⟩, ⟨"S_SD", "M2", 2, 2, 4⟩] ∧
      (buildGroups true exCls exCls3 ["S"] [[exP1, exP2, exP3, exP4, exP5]])[0]?
        = some ("S_CR", [exP1, exP2])) ∧
     (groupTrace [exM1, exM2] [exP1, exP2])[1]? = some [exP2] ∧
     dropNaNPatients exM2 [exP1, exP2] = [exP1, exP2]) ∧
    ([exP2] : List Patient) ≠ [exP1, exP2] := by
  exact ⟨⟨⟨by with_unfolding_all decide, by with_unfolding_all decide⟩,
    by with_unfolding_all decide, by with_unfolding_all decide⟩,
    by with_unfolding_all decide⟩

/-- **C2, amended.**  A patient whose prediction contains NaN under some
model is dropped from that model's aggregate and from every later model of
the same subgroup (but from nothing else): the frame from which the `j`-th
model's statistics are aggregated is the original subgroup restricted to the
patients whose fits succeeded under all of the first `j + 1` models. -/
theorem c2_exclusion_leaks_to_later_models {ms : List Model}
    {grp s : List Patient} {j : ℕ}
    (h : (groupTrace ms grp)[j]? = some s) :
    s = grp.filter fun p => (ms.take (j + 1)).all fun m => fitOk m p := by
  induction ms generalizing grp j with
  | nil => simp [groupTrace] at h
  | cons m rest ih =>
    unfold groupTrace at h
    cases j with
    | zero =>
      rw [List.getElem?_cons_zero, Option.some.injEq] at h
      subst h
      unfold dropNaNPatients
      refine List.filter_congr fun p hp => ?_
      rw [List.take_succ_cons, List.take_zero, List.all_cons, List.all_nil,
        Bool.and_true]
    | succ j' =>
      rw [List.getElem?_cons_succ] at h
      rw [ih h]
      unfold dropNaNPatients
      rw [List.filter_filter]
      refine List.filter_congr fun p hp => ?_
      rw [List.take_succ_cons, List.all_cons, Bool.and_comm]

/-- **C2, witness** for the amended theorem: under `[exM1, exM2]` the frame
used for the second model is the subgroup filtered by the failures of both
models. -/
theorem c2_witness :
    ([exP2] : List Patient) =
      [exP1, exP2].filter fun p => (([exM1, exM2].take 2).all fun m => fitOk m p) :=
  c2_exclusion_leaks_to_later_models (by with_unfolding_all decide)

/-! ### Claim C3 -/

/-- **C3.**  For every subgroup and model for which the loop body of
`get_mae_and_aic` emits a record (and for predictions with one value per
measurement point, as real fitted curves evaluated at `p['TreatmentDay']`
have), the MAE cell is the mean absolute error between the remaining
patients' predicted and observed normalized tumor volumes, pooled over all
of those patients' measurement points, and it is nonnegative. -/
theorem c3_mae_is_pooled_mean_absolute_error {m : Model} {entry : String}
    {grp : List Patient} {r : ScoreRecord} {g' : List Patient}
    (hlen : ∀ p ∈ grp, (m.predict p).length = p.measurements.length)
    (h : modelStep m entry grp = .ok (r, g')) :
    r.mae = pooledMAE m g' ∧ 0 ≤ r.mae := by
  obtain ⟨hg', hne, heq, hrec⟩ := modelStep_ok h
  subst hg'
  constructor
  · rw [hrec]
    dsimp only
    unfold pooledMAE
    rw [sumAbsDiff_decomp m grp hlen heq, length_volColumn]
  · rw [hrec]
    dsimp only
    exact div_nonneg (sumAbsDiff_nonneg _ _) (Nat.cast_nonneg _)

/-- **C3, witness**: the record of `exM1` on the subgroup `[exP1, exP2]`
(patient `exP1` dropped as all-NaN) has MAE the pooled mean absolute error
over `[exP2]`, and it is nonnegative. -/
theorem c3_witness :
    (⟨"g", "M1", 1, 1, 1⟩ : ScoreRecord).mae = pooledMAE exM1 [exP2] ∧
    0 ≤ (⟨"g", "M1", 1, 1, 1⟩ : ScoreRecord).mae :=
  @c3_mae_is_pooled_mean_absolute_error exM1 "g" [exP1, exP2]
    ⟨"g", "M1", 1, 1, 1⟩ [exP2]
    (by with_unfolding_all decide) (by with_unfolding_all decide)

/-! ### Claims C4 and C5 -/

/-- **C4 (code bug).**  The claim (and the spec's error-handling section)
require that a subgroup in which every patient fails to fit yields an
undefined/empty record surfaced in the output, without throwing.  In the
code, all patients are dropped, `n = len(frame_predicted)` is `0`, and
`absError = Sum/n` on line 255 raises `ZeroDivisionError`: on a one-patient
study whose only model prediction is all-NaN the embedded run returns the
zero-division error instead of any output. -/
theorem c4_all_failed_subgroup_raises :
    (exMnan.predict exP1).all Option.isNone = true ∧
    get_mae_and_aic true exClsCR exCls3 ["S"] [[exP1]] [exMnan]
      = .error .zeroDivision :=
  ⟨by with_unfolding_all decide, by with_unfolding_all decide⟩

/-- **C5 (code bug).**  The claim (and the spec) require a run always to
complete and to emit every computable record.  With patient 1 in `S_CR`
(whose only model fails on it) and patient 2 in `S_PR` (fitting fine), the
`S_PR` record is computable — `runModels` on that subgroup alone succeeds —
but the whole run aborts with `ZeroDivisionError` while processing `S_CR`,
and nothing is written. -/
theorem c5_run_aborts_despite_computable_records :
    get_mae_and_aic true exCls5 exCls3 ["S"] [[exP1, exP2]] [exM1]
      = .error .zeroDivision ∧
    runModels [exM1] "S_PR" [exP2] = .ok [⟨"S_PR", "M1", 1, 1, 1⟩] :=
  ⟨by with_unfolding_all decide, by with_unfolding_all decide⟩

/-! ### Claim C6 -/

theorem sum_indicator_eq_countP {β : Type} (q : β → Bool) (l : List β) :
    ((l.map fun b => if q b then (1 : ℚ) else 0).sum) = ((l.countP q : ℕ) : ℚ) := by
  induction l with
  | nil => simp
  | cons a l ih =>
    rw [List.map_cons, List.sum_cons, ih, List.countP_cons]
    by_cases h : q a
    · simp [h, add_comm]
    · simp [h]

theorem armAccuracy_eq_countP {α : Type} [DecidableEq α] (f : List ℚ → α)
    (i : ℕ) (g : List TrendPatient) :
    armAccuracy f i g =
      ((g.countP fun p => correctTrend f i p : ℕ) : ℚ) / (g.length : ℚ) := by
  unfold armAccuracy boolMean
  rw [List.length_map, sum_indicator_eq_countP, List.countP_map]
  rfl

/-- **C6.**  For every prefix length `n` with `2 ≤ n ≤ up_to`, the
classification-accuracy study's entry for `n` is, for each `(study, arm)`
group in order, the fraction of the group's patients whose trend classified
from the first `n` measurements (the classifier sees only that prefix) equals
the trend classified from the full series. -/
theorem c6_accuracy_per_prefix_length {α : Type} [DecidableEq α]
    (f : List ℚ → α) (up_to n : ℕ) (merged : List TrendPatient)
    (h2 : 2 ≤ n) (hup : n ≤ up_to) :
    (plot_correct_predictions f up_to merged)[n - 2]? =
      some ((armGroups merged).map fun g =>
        ((g.countP fun p => correctTrend f n p : ℕ) : ℚ) / (g.length : ℚ)) := by
  unfold plot_correct_predictions
  rw [List.getElem?_map, List.getElem?_range' 2 1 (show n - 2 < up_to - 1 by omega)]
  have hn : 2 + 1 * (n - 2) = n := by omega
  rw [hn, Option.map_some']
  congr 1
  refine List.map_congr_left fun g hg => ?_
  exact armAccuracy_eq_countP f n g

/-- **C6, witness** at `n = 2`, `up_to = 3`, one single-patient group whose
2-point head is classified differently (by length) from its 3-point series. -/
theorem c6_witness :
    (plot_correct_predictions (fun l : List ℚ => l.length) 3 [exTP])[2 - 2]? =
      some ((armGroups [exTP]).map fun g =>
        ((g.countP fun p => correctTrend (fun l : List ℚ => l.length) 2 p : ℕ) : ℚ) /
          (g.length : ℚ)) :=
  c6_accuracy_per_prefix_length (fun l : List ℚ => l.length) 3 2 [exTP]
    (by decide) (by decide)

/-! ### Claim C7 -/

/-- **C7.**  A successful run of `get_mae_and_aic` appends exactly one record
per (subgroup, model) pair, in the deterministic order given by the subgroup
dictionary's insertion order with the models in their given order inside each
subgroup: the `(study_trend, model)` keys of the output are exactly that
ordered list of pairs. -/
theorem c7_one_record_per_pair_in_order {recist : Bool}
    {cls4 : Patient → RecistLabel} {cls3 : Patient → FreeLabel}
    {study_names : List String} {studies : List (List Patient)}
    {models : List Model} {recs : List ScoreRecord}
    (h : get_mae_and_aic recist cls4 cls3 study_names studies models = .ok recs) :
    recs.map (fun r => (r.study_trend, r.model)) =
      (buildGroups recist cls4 cls3 study_names studies).flatMap fun g =>
        models.map fun m => (g.1, m.name) := by
  unfold get_mae_and_aic at h
  exact runGroups_ok_keys h

/-- **C7, witness** at the four-subgroup run of the C1 input. -/
theorem c7_witness :
    ([exRecCR, exRecPR, exRecPD, exRecSD].map fun r => (r.study_trend, r.model)) =
      (buildGroups true exCls exCls3 ["S"] [[exP1, exP2, exP3, exP4, exP5]]).flatMap
        fun g => [exM].map fun m => (g.1, m.name) :=
  @c7_one_record_per_pair_in_order true exCls exCls3 ["S"]
    [[exP1, exP2, exP3, exP4, exP5]] [exM] [exRecCR, exRecPR, exRecPD, exRecSD]
    (by with_unfolding_all decide)

/-! ### Claim C8 -/

theorem mem_get_at_least {st : List Patient} {n : ℕ} {p : Patient}
    (h : p ∈ get_at_least st n) : n ≤ p.measurements.length := by
  unfold get_at_least at h
  exact of_decide_eq_true (List.mem_filter.mp h).2

/-- Every patient of every subgroup of the dictionary has at least 6
measurements. -/
theorem buildGroups_measurements {recist : Bool} {cls4 : Patient → RecistLabel}
    {cls3 : Patient → FreeLabel} {study_names : List String}
    {studies : List (List Patient)} {e : String × List Patient}
    (he : e ∈ buildGroups recist cls4 cls3 study_names studies) :
    ∀ x ∈ e.2, 6 ≤ x.measurements.length := by
  intro x hx
  unfold buildGroups at he
  cases recist with
  | true =>
    rw [if_pos rfl] at he
    unfold buildGroupsRecist at he
    obtain ⟨ns, hns, hmem⟩ := List.mem_flatMap.mp he
    unfold split_on_trend_recist at hmem
    simp only [List.mem_cons, List.not_mem_nil, or_false] at hmem
    rcases hmem with h | h | h | h <;>
      (subst h
       exact mem_get_at_least (List.mem_of_mem_filter hx))
  | false =>
    rw [if_neg (by simp)] at he
    unfold buildGroupsFree at he
    obtain ⟨ns, hns, hmem⟩ := List.mem_flatMap.mp he
    unfold split_on_trend at hmem
    simp only [List.mem_cons, List.not_mem_nil, or_false] at hmem
    rcases hmem with h | h | h <;>
      (subst h
       exact mem_get_at_least (List.mem_of_mem_filter hx))

/-- **C8.**  `get_mae_and_aic` restricts every study to patients with at
least 6 measurements before building trend subgroups: every patient of every
subgroup, and every patient of every frame any model's statistics are
aggregated from, has at least 6 measurements — so patients with 2 to 5
measurements never contribute to any MAE/AIC record. -/
theorem c8_only_patients_with_six_measurements {recist : Bool}
    {cls4 : Patient → RecistLabel} {cls3 : Patient → FreeLabel}
    {study_names : List String} {studies : List (List Patient)}
    {e : String × List Patient} {ms : List Model} {s : List Patient}
    {p q : Patient}
    (he : e ∈ buildGroups recist cls4 cls3 study_names studies)
    (hq : q ∈ e.2) (hs : s ∈ groupTrace ms e.2) (hp : p ∈ s) :
    6 ≤ q.measurements.length ∧ 6 ≤ p.measurements.length :=
  ⟨buildGroups_measurements he q hq,
   buildGroups_measurements he p (groupTrace_subset hs p hp)⟩

/-- **C8, witness** at the `S_CR` subgroup of the C2 run. -/
theorem c8_witness :
    6 ≤ exP1.measurements.length ∧ 6 ≤ exP2.measurements.length :=
  @c8_only_patients_with_six_measurements true exCls exCls3 ["S"]
    [[exP1, exP2, exP3, exP4, exP5]] ("S_CR", [exP1, exP2]) [exM1, exM2]
    [exP2] exP2 exP1
    (by with_unfolding_all decide) (by with_unfolding_all decide)
    (by with_unfolding_all decide) (by with_unfolding_all decide)

/-! ### Claim C9 -/

/-- **C9.**  In the classification-accuracy study, a patient whose series has
at most `n` measurements has its `n`-point trend computed on the entire
series (`p.head(n)` of a shorter frame is the frame itself), so the two
compared trends coincide and the patient counts as a correct prediction at
that `n`. -/
theorem c9_short_series_always_correct {α : Type} [DecidableEq α]
    (f : List ℚ → α) (n : ℕ) (p : TrendPatient) (h : p.ld.length ≤ n) :
    p.ld.take n = p.ld ∧ correctTrend f n p = true := by
  have ht := List.take_of_length_le h
  refine ⟨ht, ?_⟩
  unfold correctTrend
  rw [ht]
  simp

/-- **C9, witness**: the 3-point patient at `n = 5`. -/
theorem c9_witness :
    exTP.ld.take 5 = exTP.ld ∧
    correctTrend (fun l : List ℚ => l.length) 5 exTP = true :=
  c9_short_series_always_correct (fun l : List ℚ => l.length) 5 exTP (by decide)

/-! ### Claim C10 -/

/-- **C10.**  `plot_correct_predictions` selects one classifier variant up
front from the `recist` flag (the RECIST 1.1 variant when true, the free-form
variant otherwise) and uses that same variant for both the full-series trend
and every prefix trend: the run coincides with the mixed-variant
generalization evaluated on the diagonal, with the selected variant on both
sides. -/
theorem c10_same_variant_for_both_trends {α : Type} [DecidableEq α]
    (fRec fFree : List ℚ → α) (up_to : ℕ) (merged : List TrendPatient) :
    plot_correct_predictions_run true fRec fFree up_to merged =
      plot_correct_predictions_mixed fRec fRec up_to merged ∧
    plot_correct_predictions_run false fRec fFree up_to merged =
      plot_correct_predictions_mixed fFree fFree up_to merged :=
  ⟨rfl, rfl⟩

end Plots
